import Mathlib

/-!
# Verification of the animera animation-and-camera engine

A shallow embedding of the animation engine of `src/components/TravelMap.tsx`
(the `MapContent` component): the PathModel builder, the interpolator, the
trail/segment manager, the camera-zoom controller and the animation
clock/driver.  JavaScript numbers are modelled as rationals (`ℚ`); the
Leaflet geographic distance `L.latLng(..).distanceTo(..)` is an external
library function and is therefore taken as a parameter `d` of the builder,
with its metric properties (nonnegativity, positivity on distinct points)
as explicit hypotheses where a theorem needs them.
-/

namespace Animera

/-- Transport modes, from `src/types.ts` (`TransportMode`). -/
inductive TransportMode where
  | car
  | train
  | bus
deriving DecidableEq, Repr

/-- Geographic coordinates, from `src/types.ts` (`Coordinates`). -/
structure Coordinates where
  lat : ℚ
  lng : ℚ
deriving DecidableEq, Repr

/-- One leg of a route, from `src/types.ts` (`RouteLeg`). -/
structure RouteLeg where
  coordinates : List Coordinates
  mode : TransportMode
  distance : ℚ
  duration : ℚ
deriving DecidableEq, Repr

/-- One point of the flattened path, from `TravelMap.tsx` (`PathPoint`):
latitude, longitude, the owning leg's mode, and cumulative distance in
meters from the path's start. -/
structure PathPoint where
  lat : ℚ
  lng : ℚ
  mode : TransportMode
  cumulativeDistance : ℚ
deriving DecidableEq, Repr

/-- Default `PathPoint` used for total indexing (out-of-range indices do not
occur in the guarded code paths). -/
def defaultPoint : PathPoint := ⟨0, 0, TransportMode.car, 0⟩

/-- Constant `ANIMATION_DURATION_SECONDS = 90` from `TravelMap.tsx`. -/
def ANIMATION_DURATION_SECONDS : ℚ := 90

/-- Constant `FOLLOW_ZOOM_LEVEL = 10` from `TravelMap.tsx`. -/
def FOLLOW_ZOOM_LEVEL : ℚ := 10

/-! ## PathModel builder

`TravelMap.tsx` lines 219-243: iterate legs in order, and coordinates
within each leg in order; every point after the very first adds the
Leaflet distance to the previous point to a running cumulative total. -/

/-- The flattened `(mode, coordinate)` stream produced by the nested
`routeData.legs.forEach(leg => leg.coordinates.forEach(c => ...))` loops. -/
def flattenLegs (legs : List RouteLeg) : List (TransportMode × Coordinates) :=
  legs.flatMap (fun leg => leg.coordinates.map (fun c => (leg.mode, c)))

/-- Core of the builder loop: `prev` is the coordinates of the last point
pushed so far (`none` before the first point), `cur` the running
`currentDist`, and `d` the external distance function
(`L.latLng(prev).distanceTo(L.latLng(c))`). -/
def buildFrom (d : Coordinates → Coordinates → ℚ) :
    Option Coordinates → ℚ → List (TransportMode × Coordinates) → List PathPoint
  | _, _, [] => []
  | prev, cur, (m, c) :: rest =>
      let dist : ℚ :=
        match prev with
        | none => 0
        | some pc => d pc c
      let cur2 := cur + dist
      ⟨c.lat, c.lng, m, cur2⟩ :: buildFrom d (some c) cur2 rest

/-- The `points : PathPoint[]` array built by the route-data effect. -/
def buildPath (d : Coordinates → Coordinates → ℚ) (legs : List RouteLeg) :
    List PathPoint :=
  buildFrom d none 0 (flattenLegs legs)

/-- Value of `totalDistanceRef.current`: the final `currentDist`, which equals the
last built point's cumulative distance (0 for an empty path). -/
def totalDistance (path : List PathPoint) : ℚ :=
  match path.getLast? with
  | none => 0
  | some p => p.cumulativeDistance

/-! ## Interpolator

`TravelMap.tsx` lines 350-368 inside `animate`. -/

/-- Segment-index selection, lines 351-353:
`findIndex(p => p.cumulativeDistance >= targetDist)`, with a miss (`-1`)
clamped to the last index and index `0` clamped to `1`. -/
def segIndex (path : List PathPoint) (targetDist : ℚ) : Nat :=
  let j := path.findIdx (fun p => decide (targetDist ≤ p.cumulativeDistance))
  let j' := if j = path.length then path.length - 1 else j
  if j' = 0 then 1 else j'

/-- The per-tick interpolation output: position, active mode, the
"moving west" flip flag, and the computed `ratio` local. -/
structure InterpResult where
  lat : ℚ
  lng : ℚ
  mode : TransportMode
  isFlipped : Bool
  ratio : ℚ
deriving DecidableEq, Repr

/-- Lines 355-368: pick `p1 = path[nextIdx-1]`, `p2 = path[nextIdx]`,
compute `ratio = distInSegment / segmentDist` guarded to `0` on a
zero-length segment, linearly interpolate, take `p1.mode` as the active
mode and flip when `p2.lng < p1.lng`. -/
def interp (path : List PathPoint) (targetDist : ℚ) : InterpResult :=
  let nextIdx := segIndex path targetDist
  let p1 := path.getD (nextIdx - 1) defaultPoint
  let p2 := path.getD nextIdx defaultPoint
  let segmentDist := p2.cumulativeDistance - p1.cumulativeDistance
  let distInSegment := targetDist - p1.cumulativeDistance
  let ratio := if 0 < segmentDist then distInSegment / segmentDist else 0
  { lat := p1.lat + (p2.lat - p1.lat) * ratio
    lng := p1.lng + (p2.lng - p1.lng) * ratio
    mode := p1.mode
    isFlipped := decide (p2.lng < p1.lng)
    ratio := ratio }

/-! ## Camera zoom

`TravelMap.tsx` lines 331-340: during the first 3000ms a cubic ease-out
from the captured start zoom to `FOLLOW_ZOOM_LEVEL`; afterwards the
follow zoom exactly. -/

/-- The `currentZoom` computation of a tick. -/
def computeZoom (startZoom elapsed : ℚ) : ℚ :=
  let zoomDuration : ℚ := 3000
  if elapsed < zoomDuration then
    let zoomProgress := elapsed / zoomDuration
    let ease := 1 - (1 - zoomProgress) ^ 3
    startZoom + (FOLLOW_ZOOM_LEVEL - startZoom) * ease
  else
    FOLLOW_ZOOM_LEVEL

/-! ## Trail / segment manager

`updateMapState`, `TravelMap.tsx` lines 125-177.  The Leaflet objects are
modelled by their observable state: the finished-segments layer group as a
list of `(color mode, points)` pairs, the current polyline by its point
list and color mode, the vehicle marker by position and icon parameters,
and the camera by the last `setView` arguments. -/

structure TrailState where
  finishedSegments : List (TransportMode × List (ℚ × ℚ))
  currentPoints : List (ℚ × ℚ)
  currentColorMode : TransportMode
  prevMode : TransportMode
  prevFlipped : Bool
  markerPos : ℚ × ℚ
  markerIconMode : TransportMode
  markerIconFlipped : Bool
  cameraView : Option ((ℚ × ℚ) × ℚ)
deriving DecidableEq, Repr

/-- One call of `updateMapState(point, isFinal, isFlipped, interpolatedPos,
currentZoom)`:
1. move the vehicle marker;
2. on a mode change, freeze the current polyline (colored by the previous
   mode) into the finished layer when it has at least one point, reset the
   current polyline to the single new position with the new mode's color,
   swap the icon, and record the new mode;
   separately, on a flip change, swap the icon and record the flip;
3. unconditionally append the new position to the current polyline;
4. recenter the camera unless this is the final tick. -/
def updateMapState (point : PathPoint) (isFinal : Bool) (isFlipped : Bool)
    (interpolatedPos : ℚ × ℚ) (currentZoom : ℚ) (s : TrailState) : TrailState :=
  let s1 := { s with markerPos := interpolatedPos }
  let s2 :=
    if point.mode ≠ s1.prevMode then
      let finished :=
        if 0 < s1.currentPoints.length then
          s1.finishedSegments ++ [(s1.prevMode, s1.currentPoints)]
        else
          s1.finishedSegments
      { s1 with
        finishedSegments := finished
        currentPoints := [interpolatedPos]
        currentColorMode := point.mode
        markerIconMode := point.mode
        markerIconFlipped := isFlipped
        prevMode := point.mode }
    else
      s1
  let s3 :=
    if isFlipped ≠ s2.prevFlipped then
      { s2 with
        markerIconMode := point.mode
        markerIconFlipped := isFlipped
        prevFlipped := isFlipped }
    else
      s2
  let s4 := { s3 with currentPoints := s3.currentPoints ++ [interpolatedPos] }
  if isFinal then s4 else { s4 with cameraView := some (interpolatedPos, currentZoom) }

/-! ## Animation clock / driver

The `animate` callback, `TravelMap.tsx` lines 318-379, and the
animation-loop effect entry, lines 298-316. -/

/-- The driver-level outcome of one `animate(time)` call: the computed
progress values, the zoom handed to `updateMapState`, the position/mode/
flip handed to it, whether `onAnimationComplete` was invoked, and whether
a further frame was scheduled via `requestAnimationFrame`. -/
structure TickResult where
  rawProgress : ℚ
  targetDist : ℚ
  zoom : ℚ
  pos : ℚ × ℚ
  mode : TransportMode
  isFlipped : Bool
  completed : Bool
  scheduleNext : Bool
deriving DecidableEq, Repr

/-- One `animate(time)` call, with `now` the frame timestamp and
`startTime` the recorded `startTimeRef.current`. -/
def animate (path : List PathPoint) (total startZoom startTime now : ℚ) :
    TickResult :=
  let elapsed := now - startTime
  let durationMs := ANIMATION_DURATION_SECONDS * 1000
  let rawProgress := min (elapsed / durationMs) 1
  let easedProgress := rawProgress
  let targetDist := total * easedProgress
  let currentZoom := computeZoom startZoom elapsed
  if 1 ≤ rawProgress then
    let last := path.getD (path.length - 1) defaultPoint
    { rawProgress := rawProgress
      targetDist := targetDist
      zoom := FOLLOW_ZOOM_LEVEL
      pos := (last.lat, last.lng)
      mode := last.mode
      isFlipped := false
      completed := true
      scheduleNext := false }
  else
    let r := interp path targetDist
    { rawProgress := rawProgress
      targetDist := targetDist
      zoom := currentZoom
      pos := (r.lat, r.lng)
      mode := r.mode
      isFlipped := r.isFlipped
      completed := false
      scheduleNext := true }

/-- Run a sequence of frame timestamps through `animate`, counting
invocations of `onAnimationComplete`; once a tick does not schedule a
further frame (`requestAnimationFrame` not called), later timestamps are
never processed. -/
def runTicks (path : List PathPoint) (total startZoom startTime : ℚ) :
    List ℚ → Nat
  | [] => 0
  | t :: ts =>
      let r := animate path total startZoom startTime t
      (if r.completed then 1 else 0) +
        (if r.scheduleNext then runTicks path total startZoom startTime ts else 0)

/-- Entry of the animation-loop effect (lines 298-316) from a
non-animating state: with `isPlaying` false or fewer than 2 path points it
does nothing (`none`: no tick is scheduled, the driver stays idle and no
exception is raised — the guard returns before touching anything);
otherwise it records the start time and start zoom, clears all trail state
and schedules the first frame. -/
def animationLoopEffect (path : List PathPoint) (isPlaying : Bool)
    (now zoom : ℚ) (s : TrailState) : Option (ℚ × ℚ × TrailState) :=
  if !isPlaying || decide (path.length < 2) then
    none
  else
    some (now, zoom,
      { s with
        finishedSegments := []
        currentPoints := [] })

/-- A concrete distance function used to instantiate theorems that are
parametric in the external Leaflet distance: the taxicab distance, which
shares the metric properties the engine relies on (nonnegative, positive
on distinct coordinates). -/
def taxiDist (a b : Coordinates) : ℚ :=
  |a.lat - b.lat| + |a.lng - b.lng|

/-- A concrete two-leg route (car then train) used to instantiate
builder theorems. -/
def demoLegs : List RouteLeg :=
  [⟨[⟨0, 0⟩, ⟨0, 1⟩], TransportMode.car, 0, 0⟩,
   ⟨[⟨0, 1⟩, ⟨1, 1⟩], TransportMode.train, 0, 0⟩]

/-- A concrete four-point path with a car→train mode boundary at
cumulative distance 1 (the boundary point is duplicated, giving a
zero-length step there, as the builder produces). -/
def boundaryPath : List PathPoint :=
  [⟨0, 0, TransportMode.car, 0⟩, ⟨0, 1, TransportMode.car, 1⟩,
   ⟨0, 1, TransportMode.train, 1⟩, ⟨0, 2, TransportMode.train, 2⟩]

/-- A concrete trail state — a car run in progress with a two-point live
polyline — used to instantiate trail-manager theorems. -/
def demoTrailState : TrailState :=
  ⟨[], [(0, 0), (1, 1)], TransportMode.car, TransportMode.car, false, (1, 1),
    TransportMode.car, false, none⟩

/-! ## Theorems -/

/-- Claim C5: on every tick the clock computes
`rawProgress = min(elapsed / durationMs, 1)` with `durationMs` the fixed
constant 90 seconds (90000 ms) independent of the route, and the target
distance equals `totalDistance × rawProgress`: the progress-to-distance
mapping is linear, with no easing applied to position. -/
theorem animate_linear_progress (path : List PathPoint)
    (total startZoom startTime now : ℚ) :
    (animate path total startZoom startTime now).rawProgress
        = min ((now - startTime) / 90000) 1
      ∧ (animate path total startZoom startTime now).targetDist
        = total * min ((now - startTime) / 90000) 1 := by
  have h90 : ANIMATION_DURATION_SECONDS * 1000 = (90000 : ℚ) := by
    norm_num [ANIMATION_DURATION_SECONDS]
  simp only [animate, h90]
  split <;> exact ⟨rfl, rfl⟩

/-- Claim C6: the camera zoom at elapsed time 0 equals the captured start
zoom; within the first 3000 ms it follows the cubic ease-out
`startZoom + (followZoom − startZoom) × (1 − (1 − t/3000)^3)`; and at
every elapsed time ≥ 3000 ms it equals the fixed follow zoom exactly. -/
theorem computeZoom_correct (startZoom t : ℚ) :
    computeZoom startZoom 0 = startZoom
      ∧ (0 ≤ t → t < 3000 →
          computeZoom startZoom t
            = startZoom
                + (FOLLOW_ZOOM_LEVEL - startZoom) * (1 - (1 - t / 3000) ^ 3))
      ∧ (3000 ≤ t → computeZoom startZoom t = FOLLOW_ZOOM_LEVEL) := by
  refine ⟨?_, ?_, ?_⟩
  · rw [computeZoom, if_pos (by norm_num)]
    ring
  · intro _ h3
    rw [computeZoom, if_pos h3]
  · intro h3
    rw [computeZoom, if_neg (by exact not_lt.mpr h3)]

/-- Witness for claim C6 at start zoom 7 and elapsed times 0, 1500
and 4000 ms. -/
theorem computeZoom_correct_witness :
    computeZoom 7 0 = 7
      ∧ computeZoom 7 1500
          = 7 + (FOLLOW_ZOOM_LEVEL - 7) * (1 - (1 - 1500 / 3000) ^ 3)
      ∧ computeZoom 7 4000 = FOLLOW_ZOOM_LEVEL :=
  ⟨(computeZoom_correct 7 0).1,
   (computeZoom_correct 7 1500).2.1 (by norm_num) (by norm_num),
   (computeZoom_correct 7 4000).2.2 (by norm_num)⟩

/-- Claim C8: on every interpolation step with segment endpoints
`p1 = path[nextIdx-1]` and `p2 = path[nextIdx]`, the "moving west"
direction flag is true iff `p2.lng < p1.lng`, hence in particular false
when the two longitudes are equal. -/
theorem interp_isFlipped_iff (path : List PathPoint) (targetDist : ℚ) :
    ((interp path targetDist).isFlipped = true
        ↔ (path.getD (segIndex path targetDist) defaultPoint).lng
            < (path.getD (segIndex path targetDist - 1) defaultPoint).lng)
      ∧ ((path.getD (segIndex path targetDist) defaultPoint).lng
            = (path.getD (segIndex path targetDist - 1) defaultPoint).lng
          → (interp path targetDist).isFlipped = false) := by
  have hiff : ((interp path targetDist).isFlipped = true
      ↔ (path.getD (segIndex path targetDist) defaultPoint).lng
          < (path.getD (segIndex path targetDist - 1) defaultPoint).lng) := by
    simp [interp]
  refine ⟨hiff, fun h => ?_⟩
  cases hb : (interp path targetDist).isFlipped
  · rfl
  · exact absurd (hiff.mp hb) (by rw [h]; exact lt_irrefl _)

/-- Claim C9: with fewer than 2 path points, a playback request is a
silent no-op — the animation-loop effect returns without scheduling any
tick (and without raising an exception: the model is a total function
whose guard branch touches nothing), so the driver is immediately idle. -/
theorem degenerate_route_noop (path : List PathPoint) (now zoom : ℚ)
    (s : TrailState) (h : path.length < 2) :
    animationLoopEffect path true now zoom s = none := by
  simp [animationLoopEffect, h]

/-- Witness for claim C9 on a single-point path. -/
theorem degenerate_route_noop_witness :
    animationLoopEffect [defaultPoint] true 0 5
        ⟨[], [], TransportMode.car, TransportMode.car, false, (0, 0),
          TransportMode.car, false, none⟩ = none :=
  degenerate_route_noop [defaultPoint] 0 5
    ⟨[], [], TransportMode.car, TransportMode.car, false, (0, 0),
      TransportMode.car, false, none⟩ (by decide)

/-- The builder on a route whose first leg has at least one coordinate:
the path starts with that coordinate, carrying the first leg's mode and
cumulative distance 0. -/
lemma buildPath_cons_head (d : Coordinates → Coordinates → ℚ) (l : RouteLeg)
    (ls : List RouteLeg) (c : Coordinates) (cs : List Coordinates)
    (hc : l.coordinates = c :: cs) :
    buildPath d (l :: ls)
      = ⟨c.lat, c.lng, l.mode, 0⟩
          :: buildFrom d (some c) 0
              (cs.map (fun x => (l.mode, x)) ++ flattenLegs ls) := by
  simp [buildPath, flattenLegs, hc, buildFrom]

/-- Interpolating a path whose head has cumulative distance 0 at target
distance 0: the index clamp sends the found index 0 to 1, the in-segment
distance is 0, so the ratio is 0 and the head point's coordinates and
mode are returned unchanged. -/
lemma interp_zero_head (p0 : PathPoint) (rest : List PathPoint)
    (h0 : p0.cumulativeDistance = 0) :
    (interp (p0 :: rest) 0).lat = p0.lat
      ∧ (interp (p0 :: rest) 0).lng = p0.lng
      ∧ (interp (p0 :: rest) 0).mode = p0.mode
      ∧ (interp (p0 :: rest) 0).ratio = 0 := by
  have hseg : segIndex (p0 :: rest) 0 = 1 := by
    simp [segIndex, List.findIdx_cons, h0]
  simp only [interp, hseg]
  simp [h0]

/-- Claim C7: for a route whose first leg starts at coordinate `c` and a
built path with at least 2 points, interpolating at target distance 0
yields exactly the first PathPoint's latitude and longitude and the first
leg's mode as the active mode. -/
theorem interp_zero_start (d : Coordinates → Coordinates → ℚ) (l : RouteLeg)
    (ls : List RouteLeg) (c : Coordinates) (cs : List Coordinates)
    (hc : l.coordinates = c :: cs)
    (_h2 : 2 ≤ (buildPath d (l :: ls)).length) :
    (interp (buildPath d (l :: ls)) 0).lat = c.lat
      ∧ (interp (buildPath d (l :: ls)) 0).lng = c.lng
      ∧ (interp (buildPath d (l :: ls)) 0).mode = l.mode := by
  rw [buildPath_cons_head d l ls c cs hc]
  have h := interp_zero_head ⟨c.lat, c.lng, l.mode, 0⟩
    (buildFrom d (some c) 0 (cs.map (fun x => (l.mode, x)) ++ flattenLegs ls)) rfl
  exact ⟨h.1, h.2.1, h.2.2.1⟩

/-- Witness for claim C7 on the concrete two-leg demo route (taxicab
distance). -/
theorem interp_zero_start_witness :
    (interp (buildPath taxiDist demoLegs) 0).lat = 0
      ∧ (interp (buildPath taxiDist demoLegs) 0).lng = 0
      ∧ (interp (buildPath taxiDist demoLegs) 0).mode = TransportMode.car :=
  interp_zero_start taxiDist ⟨[⟨0, 0⟩, ⟨0, 1⟩], TransportMode.car, 0, 0⟩
    [⟨[⟨0, 1⟩, ⟨1, 1⟩], TransportMode.train, 0, 0⟩] ⟨0, 0⟩ [⟨0, 1⟩]
    rfl (by decide)

/-- Counterexample to claim C2: on a mode-change tick the live polyline
does not end up with a single point — the unconditional append (step 3 of
`updateMapState`) runs after the reset, so it holds the new interpolated
position twice. -/
theorem updateMapState_single_point_cex :
    (updateMapState ⟨1, 1, TransportMode.train, 5⟩ false false (1, 1) 10
        ⟨[], [(0, 0)], TransportMode.car, TransportMode.car, false, (0, 0),
          TransportMode.car, false, none⟩).currentPoints ≠ [(1, 1)] := by
  decide

/-- Claim C2 as amended: on a tick whose active mode differs from the
previously recorded mode, the trail manager freezes the live polyline as
a segment colored by the previous mode (skipping the freeze exactly when
the live polyline is empty), and after the tick the live polyline holds
the new interpolated position twice (once from the reset, once from the
unconditional append) — every point of it is the new position — and it is
colored by the new mode, which is also recorded as the previous mode for
the next tick. -/
theorem updateMapState_mode_change (point : PathPoint) (isFinal isFlipped : Bool)
    (pos : ℚ × ℚ) (zoom : ℚ) (s : TrailState) (h : point.mode ≠ s.prevMode) :
    (s.currentPoints ≠ [] →
        (updateMapState point isFinal isFlipped pos zoom s).finishedSegments
          = s.finishedSegments ++ [(s.prevMode, s.currentPoints)])
      ∧ (s.currentPoints = [] →
          (updateMapState point isFinal isFlipped pos zoom s).finishedSegments
            = s.finishedSegments)
      ∧ (updateMapState point isFinal isFlipped pos zoom s).currentPoints
          = [pos, pos]
      ∧ (updateMapState point isFinal isFlipped pos zoom s).currentColorMode
          = point.mode
      ∧ (updateMapState point isFinal isFlipped pos zoom s).prevMode
          = point.mode := by
  simp only [updateMapState]
  refine ⟨fun hne => ?_, fun he => ?_, ?_, ?_, ?_⟩ <;>
    simp [h, List.length_pos] <;> split_ifs <;> simp_all

/-- Witness for the amended claim C2: a car→train tick on the demo trail
state freezes the two-point car polyline and leaves the live polyline
holding the new position twice, colored train. -/
theorem updateMapState_mode_change_witness :
    (updateMapState ⟨2, 3, TransportMode.train, 7⟩ false false (2, 3) 9
        demoTrailState).currentPoints = [(2, 3), (2, 3)]
      ∧ (updateMapState ⟨2, 3, TransportMode.train, 7⟩ false false (2, 3) 9
          demoTrailState).finishedSegments
        = [(TransportMode.car, [(0, 0), (1, 1)])] := by
  have h := updateMapState_mode_change ⟨2, 3, TransportMode.train, 7⟩ false false
    (2, 3) 9 demoTrailState (by decide)
  refine ⟨h.2.2.1, ?_⟩
  have h1 := h.1 (by decide)
  simpa [demoTrailState] using h1

/-- Index selection when the target distance is first reached at index
`k ≥ 1`: `findIndex` returns `k` and neither clamp fires. -/
lemma segIndex_eq_of_found (path : List PathPoint) (D : ℚ) (k : Nat)
    (hk1 : 1 ≤ k) (hk : k < path.length)
    (hbefore : ∀ i, i < k → (path.getD i defaultPoint).cumulativeDistance < D)
    (hat : D ≤ (path.getD k defaultPoint).cumulativeDistance) :
    segIndex path D = k := by
  have hfi : path.findIdx (fun p => decide (D ≤ p.cumulativeDistance)) = k := by
    rw [List.findIdx_eq hk]
    constructor
    · simp only [decide_eq_true_eq]
      simpa [List.getD_eq_getElem?_getD, List.getElem?_eq_getElem hk] using hat
    · intro j hj
      simp only [decide_eq_false_iff_not, not_le]
      have hb := hbefore j hj
      simpa [List.getD_eq_getElem?_getD,
        List.getElem?_eq_getElem (hj.trans hk)] using hb
  simp only [segIndex, hfi]
  rw [if_neg (Nat.ne_of_lt hk), if_neg (by omega)]

/-- Counterexample to claim C1: on the concrete car→train path with the
duplicated boundary point at cumulative distance 1, interpolating at
target distance exactly 1 yields the car (outgoing) mode — not the train
(incoming) mode — and ratio 1, not ratio 0. -/
theorem interp_boundary_cex :
    (interp boundaryPath 1).mode ≠ TransportMode.train
      ∧ (interp boundaryPath 1).ratio ≠ 0 := by
  have hseg : segIndex boundaryPath 1 = 1 := by
    apply segIndex_eq_of_found boundaryPath 1 1 le_rfl (by decide)
    · intro i hi
      have hi0 : i = 0 := by omega
      subst hi0
      norm_num [boundaryPath]
    · norm_num [boundaryPath]
  have h01 : boundaryPath.getD 0 defaultPoint
      = ⟨0, 0, TransportMode.car, 0⟩ := rfl
  have h11 : boundaryPath.getD 1 defaultPoint
      = ⟨0, 1, TransportMode.car, 1⟩ := rfl
  simp only [interp, hseg, h01, h11]
  refine ⟨by decide, ?_⟩
  norm_num

/-- Claim C1 as amended: interpolating at a target distance `D` that is
first reached at index `k ≥ 1` (in particular at a mode-transition
boundary, where the boundary point is duplicated and `k` is the first of
the two copies) involves no division by zero — the selected segment is
the positive-length segment ending at the boundary point, the ratio is 1
(not 0), the position is exactly the boundary point, and the active mode
is `path[k-1].mode`, the OUTGOING leg's mode (not the incoming leg's). -/
theorem interp_boundary_outgoing (path : List PathPoint) (D : ℚ) (k : Nat)
    (hk1 : 1 ≤ k) (hk : k < path.length)
    (hbefore : ∀ i, i < k → (path.getD i defaultPoint).cumulativeDistance < D)
    (hat : (path.getD k defaultPoint).cumulativeDistance = D) :
    (interp path D).mode = (path.getD (k - 1) defaultPoint).mode
      ∧ (interp path D).ratio = 1
      ∧ (interp path D).lat = (path.getD k defaultPoint).lat
      ∧ (interp path D).lng = (path.getD k defaultPoint).lng := by
  have hseg : segIndex path D = k :=
    segIndex_eq_of_found path D k hk1 hk hbefore (le_of_eq hat.symm)
  have hp1 : (path.getD (k - 1) defaultPoint).cumulativeDistance < D :=
    hbefore (k - 1) (by omega)
  have hsd : (0 : ℚ) < (path.getD k defaultPoint).cumulativeDistance
      - (path.getD (k - 1) defaultPoint).cumulativeDistance := by
    rw [hat]; linarith
  have hr : (D - (path.getD (k - 1) defaultPoint).cumulativeDistance)
      / ((path.getD k defaultPoint).cumulativeDistance
          - (path.getD (k - 1) defaultPoint).cumulativeDistance) = 1 := by
    rw [hat]
    exact div_self (by linarith)
  simp only [interp, hseg]
  rw [if_pos hsd, hr]
  refine ⟨?_, ?_, ?_, ?_⟩ <;> first | trivial | ring

/-- Witness for the amended claim C1 on the concrete boundary path at
target distance 1 (the boundary's cumulative distance, first reached at
index 1). -/
theorem interp_boundary_outgoing_witness :
    (interp boundaryPath 1).mode = (boundaryPath.getD 0 defaultPoint).mode
      ∧ (interp boundaryPath 1).ratio = 1
      ∧ (interp boundaryPath 1).lat = (boundaryPath.getD 1 defaultPoint).lat
      ∧ (interp boundaryPath 1).lng = (boundaryPath.getD 1 defaultPoint).lng :=
  interp_boundary_outgoing boundaryPath 1 1 le_rfl (by decide)
    (by
      intro i hi
      have hi0 : i = 0 := by omega
      subst hi0
      norm_num [boundaryPath])
    (by norm_num [boundaryPath])

/-- A tick whose elapsed time is below the 90000 ms duration does not
invoke the completion callback and schedules a further frame. -/
lemma animate_not_done (path : List PathPoint) (total startZoom startTime t : ℚ)
    (h : t - startTime < 90000) :
    (animate path total startZoom startTime t).completed = false
      ∧ (animate path total startZoom startTime t).scheduleNext = true := by
  have h90 : ANIMATION_DURATION_SECONDS * 1000 = (90000 : ℚ) := by
    norm_num [ANIMATION_DURATION_SECONDS]
  have hlt : (t - startTime) / 90000 < 1 := by
    rw [div_lt_one (by norm_num : (0 : ℚ) < 90000)]
    linarith
  have hmin : ¬ (1 : ℚ) ≤ min ((t - startTime) / 90000) 1 :=
    not_le.mpr (min_lt_iff.mpr (Or.inl hlt))
  simp only [animate, h90]
  rw [if_neg hmin]
  exact ⟨rfl, rfl⟩

/-- A tick whose elapsed time reaches the 90000 ms duration has raw
progress exactly 1, pins the position to the last path point, invokes the
completion callback and schedules no further frame. -/
lemma animate_done (path : List PathPoint) (total startZoom startTime t : ℚ)
    (h : 90000 ≤ t - startTime) :
    (animate path total startZoom startTime t).rawProgress = 1
      ∧ (animate path total startZoom startTime t).pos
          = ((path.getD (path.length - 1) defaultPoint).lat,
              (path.getD (path.length - 1) defaultPoint).lng)
      ∧ (animate path total startZoom startTime t).completed = true
      ∧ (animate path total startZoom startTime t).scheduleNext = false := by
  have h90 : ANIMATION_DURATION_SECONDS * 1000 = (90000 : ℚ) := by
    norm_num [ANIMATION_DURATION_SECONDS]
  have h1 : (1 : ℚ) ≤ (t - startTime) / 90000 := by
    rw [le_div_iff₀ (by norm_num : (0 : ℚ) < 90000)]
    linarith
  have hmin : min ((t - startTime) / 90000) 1 = 1 := min_eq_right h1
  simp only [animate, h90]
  rw [hmin, if_pos le_rfl]
  exact ⟨rfl, rfl, rfl, rfl⟩

/-- Running any prefix of sub-duration ticks followed by a terminal tick
counts exactly one completion-callback invocation; timestamps after the
terminal tick are never processed. -/
lemma runTicks_eq_one (path : List PathPoint) (total startZoom startTime tN : ℚ)
    (ts₂ : List ℚ) (hN : 90000 ≤ tN - startTime) :
    ∀ ts₁ : List ℚ, (∀ t ∈ ts₁, t - startTime < 90000) →
      runTicks path total startZoom startTime (ts₁ ++ tN :: ts₂) = 1 := by
  intro ts₁
  induction ts₁ with
  | nil =>
      intro _
      obtain ⟨_, _, hc, hs⟩ := animate_done path total startZoom startTime tN hN
      simp only [List.nil_append, runTicks]
      rw [hc, hs]
      simp
  | cons t ts ih =>
      intro hpre
      obtain ⟨hc', hs'⟩ := animate_not_done path total startZoom startTime t
        (hpre t (List.mem_cons_self t ts))
      simp only [List.cons_append, runTicks]
      rw [hc', hs']
      simp only [Bool.false_eq_true, if_false, if_true, Nat.zero_add]
      exact ih fun x hx => hpre x (List.mem_cons_of_mem t hx)

/-- Claim C3: for a route with at least 2 path points and the fixed 90 s
duration, the first tick whose elapsed time reaches 90000 ms has
`rawProgress = 1`, pins the vehicle position exactly to the last
PathPoint, invokes the completion callback, schedules no further tick,
and over the whole run (earlier sub-duration ticks, the terminal tick,
and any timestamps that would have followed) the callback fires exactly
once. -/
theorem completion_fires_once (path : List PathPoint)
    (total startZoom startTime : ℚ) (ts₁ : List ℚ) (tN : ℚ) (ts₂ : List ℚ)
    (_h2 : 2 ≤ path.length)
    (hpre : ∀ t ∈ ts₁, t - startTime < 90000) (hN : 90000 ≤ tN - startTime) :
    (animate path total startZoom startTime tN).rawProgress = 1
      ∧ (animate path total startZoom startTime tN).pos
          = ((path.getD (path.length - 1) defaultPoint).lat,
              (path.getD (path.length - 1) defaultPoint).lng)
      ∧ (animate path total startZoom startTime tN).completed = true
      ∧ (animate path total startZoom startTime tN).scheduleNext = false
      ∧ runTicks path total startZoom startTime (ts₁ ++ tN :: ts₂) = 1 := by
  obtain ⟨hra, hpos, hc, hs⟩ := animate_done path total startZoom startTime tN hN
  exact ⟨hra, hpos, hc, hs,
    runTicks_eq_one path total startZoom startTime tN ts₂ hN ts₁ hpre⟩

/-- Witness for claim C3 on the concrete boundary path: one early tick at
1000 ms, the terminal tick at 90000 ms, and a stray later timestamp. -/
theorem completion_fires_once_witness :
    (animate boundaryPath 2 5 0 90000).rawProgress = 1
      ∧ (animate boundaryPath 2 5 0 90000).pos
          = ((boundaryPath.getD (boundaryPath.length - 1) defaultPoint).lat,
              (boundaryPath.getD (boundaryPath.length - 1) defaultPoint).lng)
      ∧ (animate boundaryPath 2 5 0 90000).completed = true
      ∧ (animate boundaryPath 2 5 0 90000).scheduleNext = false
      ∧ runTicks boundaryPath 2 5 0 ([1000] ++ 90000 :: [91000]) = 1 :=
  completion_fires_once boundaryPath 2 5 0 [1000] 90000 [91000]
    (by decide)
    (by
      intro t ht
      rw [List.mem_singleton] at ht
      subst ht
      norm_num)
    (by norm_num)

/-- The taxicab distance is nonnegative. -/
lemma taxiDist_nonneg (a b : Coordinates) : 0 ≤ taxiDist a b := by
  unfold taxiDist
  positivity

/-- The taxicab distance is positive on distinct coordinates. -/
lemma taxiDist_pos (a b : Coordinates) (hab : a ≠ b) : 0 < taxiDist a b := by
  unfold taxiDist
  rcases eq_or_ne a.lat b.lat with h1 | h1
  · rcases eq_or_ne a.lng b.lng with h2 | h2
    · exact absurd (by cases a; cases b; simp_all) hab
    · have hpos : 0 < |a.lng - b.lng| := abs_pos.mpr (sub_ne_zero.mpr h2)
      have h0 : (0 : ℚ) ≤ |a.lat - b.lat| := abs_nonneg _
      linarith
  · have hpos : 0 < |a.lat - b.lat| := abs_pos.mpr (sub_ne_zero.mpr h1)
    have h0 : (0 : ℚ) ≤ |a.lng - b.lng| := abs_nonneg _
    linarith

/-- The head of a `buildFrom` output with a known previous coordinate has
cumulative distance `cur` plus the distance from that coordinate to its
own coordinates. -/
lemma buildFrom_head_cum (d : Coordinates → Coordinates → ℚ) (pc : Coordinates)
    (cur : ℚ) (xs : List (TransportMode × Coordinates)) (q : PathPoint)
    (hq : (buildFrom d (some pc) cur xs).head? = some q) :
    q.cumulativeDistance = cur + d pc ⟨q.lat, q.lng⟩ := by
  cases xs with
  | nil => simp [buildFrom] at hq
  | cons x rest =>
      obtain ⟨m, c⟩ := x
      simp only [buildFrom, List.head?_cons, Option.some.injEq] at hq
      subst hq
      rfl

/-- Consecutive points of a `buildFrom` output: cumulative distance never
decreases, and strictly increases when the two points are geographically
distinct — for any distance function that is nonnegative and positive on
distinct coordinates. -/
lemma buildFrom_chain (d : Coordinates → Coordinates → ℚ)
    (hd : ∀ a b, 0 ≤ d a b) (hd2 : ∀ a b, a ≠ b → 0 < d a b) :
    ∀ (xs : List (TransportMode × Coordinates)) (prev : Option Coordinates)
      (cur : ℚ),
      List.Chain' (fun p q : PathPoint =>
        p.cumulativeDistance ≤ q.cumulativeDistance
          ∧ (Coordinates.mk p.lat p.lng ≠ Coordinates.mk q.lat q.lng →
              p.cumulativeDistance < q.cumulativeDistance))
        (buildFrom d prev cur xs) := by
  intro xs
  induction xs with
  | nil =>
      intro prev cur
      simp [buildFrom]
  | cons x rest ih =>
      intro prev cur
      obtain ⟨m, c⟩ := x
      simp only [buildFrom]
      rw [List.chain'_cons']
      refine ⟨?_, ih _ _⟩
      intro q hq
      have hcum := buildFrom_head_cum d c _ rest q (Option.mem_def.mp hq)
      constructor
      · have h0 := hd c ⟨q.lat, q.lng⟩
        rw [hcum]
        simp only
        linarith
      · intro hne
        have hpos : 0 < d c ⟨q.lat, q.lng⟩ := hd2 c ⟨q.lat, q.lng⟩ hne
        rw [hcum]
        simp only
        linarith

/-- Claim C4: for every list of legs and any distance function that is
nonnegative and positive on distinct coordinates (the metric properties
of the external Leaflet surface distance), the built PathPoint sequence
has cumulative distances that never decrease between consecutive points,
strictly increase between geographically distinct consecutive points, and
the first built point — the first point of the first leg, when the first
leg is nonempty — has cumulative distance exactly 0. -/
theorem buildPath_cumulative_invariant (d : Coordinates → Coordinates → ℚ)
    (hd : ∀ a b, 0 ≤ d a b) (hd2 : ∀ a b, a ≠ b → 0 < d a b)
    (legs : List RouteLeg) :
    List.Chain' (fun p q : PathPoint =>
        p.cumulativeDistance ≤ q.cumulativeDistance
          ∧ (Coordinates.mk p.lat p.lng ≠ Coordinates.mk q.lat q.lng →
              p.cumulativeDistance < q.cumulativeDistance))
        (buildPath d legs)
      ∧ (∀ p rest, buildPath d legs = p :: rest → p.cumulativeDistance = 0)
      ∧ (∀ l ls c cs, legs = l :: ls → l.coordinates = c :: cs →
          (buildPath d legs).head? = some ⟨c.lat, c.lng, l.mode, 0⟩) := by
  refine ⟨buildFrom_chain d hd hd2 _ _ _, ?_, ?_⟩
  · intro p rest hpr
    cases hfl : flattenLegs legs with
    | nil =>
        rw [buildPath, hfl] at hpr
        simp [buildFrom] at hpr
    | cons x xs =>
        obtain ⟨m, c⟩ := x
        rw [buildPath, hfl] at hpr
        simp only [buildFrom, List.cons.injEq] at hpr
        obtain ⟨h1, -⟩ := hpr
        rw [← h1]
        norm_num
  · intro l ls c cs hlegs hc
    subst hlegs
    rw [buildPath_cons_head d l ls c cs hc]
    rfl

/-- Witness for claim C4: the builder invariant instantiated with the
taxicab distance on the concrete two-leg demo route. -/
theorem buildPath_cumulative_invariant_witness :
    List.Chain' (fun p q : PathPoint =>
        p.cumulativeDistance ≤ q.cumulativeDistance
          ∧ (Coordinates.mk p.lat p.lng ≠ Coordinates.mk q.lat q.lng →
              p.cumulativeDistance < q.cumulativeDistance))
        (buildPath taxiDist demoLegs)
      ∧ (∀ p rest, buildPath taxiDist demoLegs = p :: rest →
          p.cumulativeDistance = 0)
      ∧ (∀ l ls c cs, demoLegs = l :: ls → l.coordinates = c :: cs →
          (buildPath taxiDist demoLegs).head? = some ⟨c.lat, c.lng, l.mode, 0⟩) :=
  buildPath_cumulative_invariant taxiDist taxiDist_nonneg taxiDist_pos demoLegs

/-- Linear interpolation with a ratio in `[0, 1]` stays between the two
endpoint values. -/
lemma convex_between (a b r : ℚ) (h0 : 0 ≤ r) (h1 : r ≤ 1) :
    min a b ≤ a + (b - a) * r ∧ a + (b - a) * r ≤ max a b := by
  rcases le_total a b with hab | hab
  · rw [min_eq_left hab, max_eq_right hab]
    constructor <;> nlinarith
  · rw [min_eq_right hab, max_eq_left hab]
    constructor <;> nlinarith

/-- The computed ratio is the in-segment distance divided by the segment
length, guarded to 0 on a non-positive-length segment. -/
lemma interp_ratio_eq (path : List PathPoint) (D : ℚ) :
    (interp path D).ratio
      = if 0 < (path.getD (segIndex path D) defaultPoint).cumulativeDistance
            - (path.getD (segIndex path D - 1) defaultPoint).cumulativeDistance
        then (D - (path.getD (segIndex path D - 1) defaultPoint).cumulativeDistance)
              / ((path.getD (segIndex path D) defaultPoint).cumulativeDistance
                  - (path.getD (segIndex path D - 1) defaultPoint).cumulativeDistance)
        else 0 := rfl

/-- The interpolated latitude is the segment-start latitude plus the
latitude span times the computed ratio. -/
lemma interp_lat_eq (path : List PathPoint) (D : ℚ) :
    (interp path D).lat
      = (path.getD (segIndex path D - 1) defaultPoint).lat
          + ((path.getD (segIndex path D) defaultPoint).lat
              - (path.getD (segIndex path D - 1) defaultPoint).lat)
            * (interp path D).ratio := rfl

/-- The interpolated longitude is the segment-start longitude plus the
longitude span times the computed ratio. -/
lemma interp_lng_eq (path : List PathPoint) (D : ℚ) :
    (interp path D).lng
      = (path.getD (segIndex path D - 1) defaultPoint).lng
          + ((path.getD (segIndex path D) defaultPoint).lng
              - (path.getD (segIndex path D - 1) defaultPoint).lng)
            * (interp path D).ratio := rfl

/-- Claim C10: for a path with at least 2 points whose cumulative
distances are non-decreasing and start at 0, and any target distance `D`
with `0 ≤ D ≤ totalDistance`, the interpolation ratio (after the clamp of
the segment index to at least 1) lies in `[0, 1]`, and the interpolated
latitude and longitude lie between the corresponding coordinates of the
chosen segment endpoints `p1` and `p2`. -/
theorem interp_ratio_in_unit_interval (path : List PathPoint) (D : ℚ)
    (h2 : 2 ≤ path.length)
    (_hmono : List.Chain' (fun p q : PathPoint =>
        p.cumulativeDistance ≤ q.cumulativeDistance) path)
    (h0 : (path.getD 0 defaultPoint).cumulativeDistance = 0)
    (hD0 : 0 ≤ D) (hDle : D ≤ totalDistance path) :
    (0 ≤ (interp path D).ratio ∧ (interp path D).ratio ≤ 1)
      ∧ min (path.getD (segIndex path D - 1) defaultPoint).lat
            (path.getD (segIndex path D) defaultPoint).lat
          ≤ (interp path D).lat
      ∧ (interp path D).lat
          ≤ max (path.getD (segIndex path D - 1) defaultPoint).lat
              (path.getD (segIndex path D) defaultPoint).lat
      ∧ min (path.getD (segIndex path D - 1) defaultPoint).lng
            (path.getD (segIndex path D) defaultPoint).lng
          ≤ (interp path D).lng
      ∧ (interp path D).lng
          ≤ max (path.getD (segIndex path D - 1) defaultPoint).lng
              (path.getD (segIndex path D) defaultPoint).lng := by
  have hne : path ≠ [] := by
    intro h
    rw [h] at h2
    simp at h2
  have ht : totalDistance path = (path.getLast hne).cumulativeDistance := by
    unfold totalDistance
    rw [List.getLast?_eq_getLast path hne]
  have hlast : D ≤ (path.getLast hne).cumulativeDistance := ht ▸ hDle
  have hex : ∃ x ∈ path,
      (fun p : PathPoint => decide (D ≤ p.cumulativeDistance)) x = true :=
    ⟨path.getLast hne, List.getLast_mem hne, by simpa using hlast⟩
  have hjlt : path.findIdx (fun p => decide (D ≤ p.cumulativeDistance))
      < path.length := List.findIdx_lt_length.mpr hex
  set j := path.findIdx (fun p => decide (D ≤ p.cumulativeDistance)) with hj
  have hjD : D ≤ (path.getD j defaultPoint).cumulativeDistance := by
    have hg := @List.findIdx_getElem PathPoint
      (fun p : PathPoint => decide (D ≤ p.cumulativeDistance)) path hjlt
    simp only [decide_eq_true_eq] at hg
    simpa [List.getD_eq_getElem?_getD, List.getElem?_eq_getElem hjlt] using hg
  have hrb : 0 ≤ (interp path D).ratio ∧ (interp path D).ratio ≤ 1 := by
    rcases Nat.eq_zero_or_pos j with hj0 | hjpos
    · have h00 : D ≤ (path.getD 0 defaultPoint).cumulativeDistance := hj0 ▸ hjD
      rw [h0] at h00
      have hD' : D = 0 := le_antisymm h00 hD0
      have hseg : segIndex path D = 1 := by
        simp only [segIndex, ← hj, hj0]
        rw [if_neg (show ¬(0 = path.length) by omega)]
        simp
      have hp1cum : (path.getD (segIndex path D - 1) defaultPoint).cumulativeDistance
          = 0 := by
        rw [hseg]
        exact h0
      have hzero : (interp path D).ratio = 0 := by
        rw [interp_ratio_eq, hp1cum, hD']
        norm_num
      rw [hzero]
      norm_num
    · have hjne : j ≠ path.length := Nat.ne_of_lt hjlt
      have hseg : segIndex path D = j := by
        simp only [segIndex, ← hj]
        rw [if_neg hjne, if_neg (show ¬(j = 0) by omega)]
      have hp1 : (path.getD (j - 1) defaultPoint).cumulativeDistance < D := by
        have hfi : j - 1 < path.findIdx
            (fun p : PathPoint => decide (D ≤ p.cumulativeDistance)) := by
          omega
        have hnp := List.not_of_lt_findIdx hfi
        simp only [decide_eq_false_iff_not, not_le] at hnp
        simpa [List.getD_eq_getElem?_getD,
          List.getElem?_eq_getElem (show j - 1 < path.length by omega)] using hnp
      have hsd : 0 < (path.getD j defaultPoint).cumulativeDistance
          - (path.getD (j - 1) defaultPoint).cumulativeDistance := by
        linarith
      have hratio : (interp path D).ratio
          = (D - (path.getD (j - 1) defaultPoint).cumulativeDistance)
              / ((path.getD j defaultPoint).cumulativeDistance
                  - (path.getD (j - 1) defaultPoint).cumulativeDistance) := by
        simp only [interp, hseg]
        rw [if_pos hsd]
      constructor
      · rw [hratio]
        exact div_nonneg (by linarith) (le_of_lt hsd)
      · rw [hratio]
        rw [div_le_one hsd]
        linarith
  refine ⟨hrb, ?_, ?_, ?_, ?_⟩
  · have hc := convex_between (path.getD (segIndex path D - 1) defaultPoint).lat
      (path.getD (segIndex path D) defaultPoint).lat _ hrb.1 hrb.2
    rw [← interp_lat_eq path D] at hc
    exact hc.1
  · have hc := convex_between (path.getD (segIndex path D - 1) defaultPoint).lat
      (path.getD (segIndex path D) defaultPoint).lat _ hrb.1 hrb.2
    rw [← interp_lat_eq path D] at hc
    exact hc.2
  · have hc := convex_between (path.getD (segIndex path D - 1) defaultPoint).lng
      (path.getD (segIndex path D) defaultPoint).lng _ hrb.1 hrb.2
    rw [← interp_lng_eq path D] at hc
    exact hc.1
  · have hc := convex_between (path.getD (segIndex path D - 1) defaultPoint).lng
      (path.getD (segIndex path D) defaultPoint).lng _ hrb.1 hrb.2
    rw [← interp_lng_eq path D] at hc
    exact hc.2

/-- Witness for claim C10 on the concrete boundary path at target
distance 1. -/
theorem interp_ratio_in_unit_interval_witness :
    (0 ≤ (interp boundaryPath 1).ratio ∧ (interp boundaryPath 1).ratio ≤ 1)
      ∧ min (boundaryPath.getD (segIndex boundaryPath 1 - 1) defaultPoint).lat
            (boundaryPath.getD (segIndex boundaryPath 1) defaultPoint).lat
          ≤ (interp boundaryPath 1).lat
      ∧ (interp boundaryPath 1).lat
          ≤ max (boundaryPath.getD (segIndex boundaryPath 1 - 1) defaultPoint).lat
              (boundaryPath.getD (segIndex boundaryPath 1) defaultPoint).lat
      ∧ min (boundaryPath.getD (segIndex boundaryPath 1 - 1) defaultPoint).lng
            (boundaryPath.getD (segIndex boundaryPath 1) defaultPoint).lng
          ≤ (interp boundaryPath 1).lng
      ∧ (interp boundaryPath 1).lng
          ≤ max (boundaryPath.getD (segIndex boundaryPath 1 - 1) defaultPoint).lng
              (boundaryPath.getD (segIndex boundaryPath 1) defaultPoint).lng :=
  interp_ratio_in_unit_interval boundaryPath 1 (by decide)
    (by norm_num [boundaryPath, List.chain'_cons, List.chain'_singleton])
    rfl (by norm_num) (by rw [show totalDistance boundaryPath = 2 from rfl]; norm_num)

end Animera
